import Mathlib

/-!
Shallow embedding of the Brickz brick-shooter game (`src/app.py`) and proofs
about its specification claims.  Positions and velocities are modelled as
real numbers (Python floats), grid coordinates and counters as naturals and
integers.  Randomness (`random.randint` / `random.sample` in
`spawn_new_row`) is modelled by passing the sampled column list as an
explicit parameter constrained by the contract `ValidSpawn`.
-/

open scoped Classical

noncomputable section

namespace Brickz

/-- SCREEN_WIDTH = 300 (pixels). -/
def SCREEN_WIDTH : ℝ := 300

/-- SCREEN_HEIGHT = 500 (pixels). -/
def SCREEN_HEIGHT : ℝ := 500

/-- BRICK_COLS = SCREEN_WIDTH // BRICK_SIZE = 6. -/
def BRICK_COLS : ℕ := 6

/-- MAX_ROWS = SCREEN_HEIGHT // BRICK_SIZE = 10. -/
def MAX_ROWS : ℕ := 10

/-- BALL_RADIUS = 5. -/
def BALL_RADIUS : ℝ := 5

/-- BALL_SPEED = 12. -/
def BALL_SPEED : ℝ := 12

/-- Python `clamp(val, min_val, max_val) = max(min_val, min(val, max_val))`. -/
def clampR (v lo hi : ℝ) : ℝ := max lo (min v hi)

/-- Python `int(x)` for a float: truncation toward zero. -/
def pyInt (x : ℝ) : ℤ := if 0 ≤ x then ⌊x⌋ else ⌈x⌉

/-- Python `math.copysign(1, x)` (signed zero is not modelled; 0 maps to 1). -/
def copysign1 (x : ℝ) : ℝ := if x < 0 then -1 else 1

/-- Python `math.atan2 y x`, modelled by the complex argument of `x + y*I`. -/
def pyAtan2 (y x : ℝ) : ℝ := Complex.arg ⟨x, y⟩

/-- The `Ball` class: position, velocity, activity flags, launch delay and
the informational collision cooldown. -/
structure Ball where
  x : ℝ
  y : ℝ
  dx : ℝ
  dy : ℝ
  active : Bool
  launched : Bool
  delay : ℕ
  cooldown : ℕ

/-- The `Brick` class: grid column and row, current and initial hit points. -/
structure Brick where
  col : ℕ
  row : ℕ
  value : ℤ
  maxValue : ℤ
deriving DecidableEq

/-- `Brick.rect` left edge: `col * BRICK_SIZE + 1`. -/
def rectLeft (b : Brick) : ℝ := (b.col : ℝ) * 50 + 1

/-- `Brick.rect` top edge: `row * BRICK_SIZE + 1`. -/
def rectTop (b : Brick) : ℝ := (b.row : ℝ) * 50 + 1

/-- `Brick.rect` right edge (width `BRICK_SIZE - 2 = 48`). -/
def rectRight (b : Brick) : ℝ := rectLeft b + 48

/-- `Brick.rect` bottom edge (height `BRICK_SIZE - 2 = 48`). -/
def rectBottom (b : Brick) : ℝ := rectTop b + 48

/-- `Ball.update`: advance by velocity, bounce off side and top walls,
deactivate at the bottom wall; decrement the cooldown counter. -/
def Ball.update (b : Ball) : Ball :=
  let x1 := b.x + b.dx
  let y1 := b.y + b.dy
  let x2 := if x1 - BALL_RADIUS ≤ 0 then BALL_RADIUS
            else if x1 + BALL_RADIUS ≥ SCREEN_WIDTH then SCREEN_WIDTH - BALL_RADIUS
            else x1
  let dx2 := if x1 - BALL_RADIUS ≤ 0 then -b.dx
             else if x1 + BALL_RADIUS ≥ SCREEN_WIDTH then -b.dx
             else b.dx
  let y2 := if y1 - BALL_RADIUS ≤ 0 then BALL_RADIUS else y1
  let dy2 := if y1 - BALL_RADIUS ≤ 0 then -b.dy else b.dy
  { b with
    cooldown := if 0 < b.cooldown then b.cooldown - 1 else b.cooldown
    x := x2
    dx := dx2
    y := if y2 + BALL_RADIUS ≥ SCREEN_HEIGHT then SCREEN_HEIGHT - BALL_RADIUS else y2
    dy := dy2
    active := if y2 + BALL_RADIUS ≥ SCREEN_HEIGHT then false else b.active }

/-- Closest point of the brick rectangle to the ball center
(per-axis clamping, as in `ball_colliding_brick` / `resolve_collision`). -/
def closestPt (ball : Ball) (b : Brick) : ℝ × ℝ :=
  (clampR ball.x (rectLeft b) (rectRight b), clampR ball.y (rectTop b) (rectBottom b))

/-- `ball_colliding_brick`: squared distance from the center to the closest
point of the rectangle is strictly less than the squared radius. -/
def Collides (ball : Ball) (b : Brick) : Prop :=
  (ball.x - (closestPt ball b).1)^2 + (ball.y - (closestPt ball b).2)^2 <
    BALL_RADIUS^2

/-- `pygame.Rect.collidepoint` (right and bottom edges exclusive). -/
def InsideRect (ball : Ball) (b : Brick) : Prop :=
  rectLeft b ≤ ball.x ∧ ball.x < rectRight b ∧
    rectTop b ≤ ball.y ∧ ball.y < rectBottom b

/-- Geometry part of `resolve_collision`: corrected center position together
with the unit surface normal used for the reflection. -/
def collisionGeom (ball : Ball) (b : Brick) : (ℝ × ℝ) × ℝ × ℝ :=
  if InsideRect ball b then
    let leftPen := ball.x - rectLeft b
    let rightPen := rectRight b - ball.x
    let topPen := ball.y - rectTop b
    let botPen := rectBottom b - ball.y
    let minPen := min (min (min leftPen rightPen) topPen) botPen
    if minPen = leftPen then ((rectLeft b - BALL_RADIUS, ball.y), -1, 0)
    else if minPen = rightPen then ((rectRight b + BALL_RADIUS, ball.y), 1, 0)
    else if minPen = topPen then ((ball.x, rectTop b - BALL_RADIUS), 0, -1)
    else ((ball.x, rectBottom b + BALL_RADIUS), 0, 1)
  else
    let cdx := ball.x - (closestPt ball b).1
    let cdy := ball.y - (closestPt ball b).2
    let d := Real.sqrt (cdx^2 + cdy^2)
    if d = 0 then
      if |ball.dx| > |ball.dy| then
        ((ball.x + copysign1 ball.dx * (BALL_RADIUS - 1/1000), ball.y),
          copysign1 ball.dx, 0)
      else
        ((ball.x, ball.y + copysign1 ball.dy * (BALL_RADIUS - 1/1000)),
          0, copysign1 ball.dy)
    else
      if d < BALL_RADIUS then
        ((ball.x + cdx / d * (BALL_RADIUS - d), ball.y + cdy / d * (BALL_RADIUS - d)),
          cdx / d, cdy / d)
      else ((ball.x, ball.y), cdx / d, cdy / d)

/-- Reflection of the velocity about the surface normal followed by
renormalization to `BALL_SPEED` (`v' = v - 2 (v·n) n`, then `normalize`). -/
def reflectRescale (dx dy nx ny : ℝ) : ℝ × ℝ :=
  let dot := dx * nx + dy * ny
  let rdx := dx - 2 * dot * nx
  let rdy := dy - 2 * dot * ny
  let mag := Real.sqrt (rdx^2 + rdy^2)
  if mag = 0 then (0, 0) else (rdx / mag * BALL_SPEED, rdy / mag * BALL_SPEED)

/-- `resolve_collision`: push the ball out of the brick and reflect its
velocity, renormalized to `BALL_SPEED`. -/
def resolveCollision (ball : Ball) (b : Brick) : Ball :=
  let g := collisionGeom ball b
  let v := reflectRescale ball.dx ball.dy g.2.1 g.2.2
  { ball with x := g.1.1, y := g.1.2, dx := v.1, dy := v.2 }

/-- One pass of the inner `for brick in bricks[:]` scan: find the first
colliding brick, damage it (`value -= 1`, `score += 10`, high-score update,
cooldown, `resolve_collision`) and drop it when depleted. -/
def scanHit (ball : Ball) : List Brick → ℕ → ℕ → Option (Ball × List Brick × ℕ × ℕ)
  | [], _, _ => none
  | b :: rest, score, high =>
    if Collides ball b then
      let score2 := score + 10
      let high2 := max high score2
      let hitB : Brick := { b with value := b.value - 1 }
      let ball2 := resolveCollision { ball with cooldown := 10 } hitB
      some (ball2, (if hitB.value ≤ 0 then rest else hitB :: rest), score2, high2)
    else
      match scanHit ball rest score high with
      | none => none
      | some (b2, rest2, s2, h2) => some (b2, b :: rest2, s2, h2)

/-- The bounded `while collision_found and iterations < max_iterations` loop;
the last component counts the performed iterations. -/
def collisionLoop : ℕ → Ball → List Brick → ℕ → ℕ → ℕ → Ball × List Brick × ℕ × ℕ × ℕ
  | 0, ball, bricks, score, high, iters => (ball, bricks, score, high, iters)
  | fuel + 1, ball, bricks, score, high, iters =>
    match scanHit ball bricks score high with
    | none => (ball, bricks, score, high, iters + 1)
    | some (b2, br2, s2, h2) => collisionLoop fuel b2 br2 s2 h2 (iters + 1)

/-- Per-ball collision resolution with the cap `max_iterations = 10`. -/
def runCollisions (ball : Ball) (bricks : List Brick) (score high : ℕ) :
    Ball × List Brick × ℕ × ℕ × ℕ :=
  collisionLoop 10 ball bricks score high 0

/-- Per-ball step of the main loop: `ball.update()` followed by the capped
collision loop, only for launched active balls. -/
def processBall (bricks : List Brick) (score high : ℕ) (ball : Ball) :
    Ball × List Brick × ℕ × ℕ :=
  if ball.launched && ball.active then
    let r := runCollisions (Ball.update ball) bricks score high
    (r.1, r.2.1, r.2.2.1, r.2.2.2.1)
  else (ball, bricks, score, high)

/-- Sequential processing of all balls of the shot list. -/
def processBalls : List Ball → List Brick → ℕ → ℕ → List Ball × List Brick × ℕ × ℕ
  | [], bricks, score, high => ([], bricks, score, high)
  | ball :: rest, bricks, score, high =>
    let r := processBall bricks score high ball
    let rr := processBalls rest r.2.1 r.2.2.1 r.2.2.2
    (r.1 :: rr.1, rr.2.1, rr.2.2.1, rr.2.2.2)

/-- Launch-delay pass: mark every waiting ball whose delay has been reached. -/
def markLaunched (frame : ℕ) (balls : List Ball) : List Ball :=
  balls.map fun b => if !b.launched && b.delay ≤ frame then { b with launched := true } else b

/-- `spawn_new_row`: one brick per sampled column, at row 1, with
`value = level`.  The sampled columns are passed explicitly. -/
def spawnNewRow (cols : List ℕ) (lvl : ℕ) (bricks : List Brick) : List Brick :=
  bricks ++ cols.map fun c => { col := c, row := 1, value := (lvl : ℤ), maxValue := (lvl : ℤ) }

/-- Contract of `random.randint(1, 4)` and `random.sample(range(BRICK_COLS), count)`. -/
def ValidSpawn (cols : List ℕ) : Prop :=
  1 ≤ cols.length ∧ cols.length ≤ 4 ∧ cols.Nodup ∧ ∀ c ∈ cols, c < BRICK_COLS

/-- `move_bricks_down`: every brick's row is incremented. -/
def moveBricksDown (bricks : List Brick) : List Brick :=
  bricks.map fun b => { b with row := b.row + 1 }

/-- `remove_bottom_rows n`: bricks with `row ≥ MAX_ROWS - n` move to the
dying list with a 30-tick fade timer. -/
def removeBottomRows (n : ℕ) (bricks : List Brick) (dying : List (Brick × ℤ)) :
    List Brick × List (Brick × ℤ) :=
  (bricks.filter fun b => b.row < MAX_ROWS - n,
   dying ++ (bricks.filter fun b => MAX_ROWS - n ≤ b.row).map fun b => (b, 30))

/-- `check_bricks_bottom`: on the first brick with `row ≥ 9`, lose one life,
start the 30-tick lives flash and sweep the bottom 3 rows. -/
def checkBricksBottom (bricks : List Brick) (lives : ℤ) (flash : ℤ)
    (dying : List (Brick × ℤ)) : List Brick × ℤ × ℤ × List (Brick × ℤ) :=
  if bricks.any (fun b => 9 ≤ b.row) then
    let r := removeBottomRows 3 bricks dying
    (r.1, lives - 1, 30, r.2)
  else (bricks, lives, flash, dying)

/-- The whole mutable game state of the script. -/
structure GameState where
  level : ℕ
  baseBallCount : ℕ
  ballsToFire : List Ball
  returnedPositions : List ℝ
  baseX : ℤ
  aimAngle : ℝ
  firing : Bool
  launchStart : ℕ
  lives : ℤ
  score : ℕ
  highScore : ℕ
  highestLevel : ℕ
  bricks : List Brick
  dyingBricks : List (Brick × ℤ)
  livesFlashTimer : ℤ
  frameCount : ℕ
  gameOver : Bool

/-- `get_ball_count(level) = 2 * level`. -/
def getBallCount (lvl : ℕ) : ℕ := 2 * lvl

/-- The `Ball.__init__` constructor. -/
def mkBall (x y angle : ℝ) : Ball :=
  { x := x, y := y, dx := BALL_SPEED * Real.cos angle,
    dy := -(BALL_SPEED * Real.sin angle),
    active := true, launched := false, delay := 0, cooldown := 0 }

/-- `fire_balls`: create `base_ball_count` balls at the launch point with
staggered launch delays of 5 frames. -/
def fireBalls (s : GameState) : GameState :=
  { s with firing := true, launchStart := s.frameCount,
           ballsToFire := (List.range s.baseBallCount).map fun i =>
             { mkBall (s.baseX : ℝ) (SCREEN_HEIGHT - BALL_RADIUS) s.aimAngle with
                 delay := s.frameCount + i * 5 } }

/-- `reset_for_next_turn`: next origin from the first returned position,
level increment, highest-level update, descend, spawn, clear lists. -/
def resetForNextTurn (sp : List ℕ) (s : GameState) : GameState :=
  let s1 :=
    match s.returnedPositions with
    | [] => s
    | p :: _ => { s with baseX := max 5 (min 295 (pyInt p)) }
  let lvl := s.level + 1
  { s1 with
    level := lvl
    highestLevel := if s1.highestLevel < lvl then lvl else s1.highestLevel
    baseBallCount := getBallCount lvl
    bricks := spawnNewRow sp lvl (moveBricksDown s1.bricks)
    ballsToFire := []
    returnedPositions := []
    firing := false }

/-- `new_game`: reset for a new game (note: the code also resets
`highest_level` to 1, contradicting its own docstring). -/
def newGame (sp : List ℕ) (s : GameState) : GameState :=
  { s with
    level := 1
    baseBallCount := getBallCount 1
    ballsToFire := []
    returnedPositions := []
    baseX := 150
    aimAngle := Real.pi / 4
    firing := false
    launchStart := 0
    lives := 3
    score := 0
    bricks := spawnNewRow sp 1 []
    dyingBricks := []
    highestLevel := 1
    livesFlashTimer := 0
    frameCount := 0
    gameOver := false }

/-- Input intents delivered by pygame events. -/
inductive GEvent
  | keyLeft
  | keyRight
  | keySpace
  | mouseMotion (mx my : ℝ)
deriving DecidableEq

/-- Event handling of the main loop: aim moves and fire requests while
playing, new-game request only while in game over. -/
def handleEvent (sp : List ℕ) (s : GameState) (e : GEvent) : GameState :=
  if s.gameOver = false then
    match e with
    | .keyLeft => { s with baseX := max 5 (s.baseX - 10) }
    | .keyRight => { s with baseX := min 295 (s.baseX + 10) }
    | .keySpace => if s.firing = false then fireBalls s else s
    | .mouseMotion mx my =>
        { s with aimAngle :=
            pyAtan2 (if SCREEN_HEIGHT - BALL_RADIUS - my ≤ 0 then 1
                     else SCREEN_HEIGHT - BALL_RADIUS - my) (mx - (s.baseX : ℝ)) }
  else
    match e with
    | .keySpace => newGame sp s
    | _ => s

/-- Firing part of a tick: launch-delay pass and per-ball updates with
collision resolution (no-op when not firing). -/
def firingPhase (s : GameState) : GameState :=
  if s.firing then
    let balls := markLaunched s.frameCount s.ballsToFire
    let r := processBalls balls s.bricks s.score s.highScore
    { s with ballsToFire := r.1, bricks := r.2.1,
             score := r.2.2.1, highScore := r.2.2.2 }
  else s

/-- Round-completion check: when firing and every ball of the shot list is
launched and inactive, record the returned positions and reset for the
next turn (with the frame counter cleared). -/
def completionPhase (sp : List ℕ) (s : GameState) : GameState :=
  if s.firing && s.ballsToFire.all (fun b => b.launched && !b.active) then
    { resetForNextTurn sp
        { s with returnedPositions :=
            s.returnedPositions ++ s.ballsToFire.map Ball.x } with
      frameCount := 0 }
  else s

/-- The `check_bricks_bottom()` call of the main loop. -/
def breachPhase (s : GameState) : GameState :=
  let r := checkBricksBottom s.bricks s.lives s.livesFlashTimer s.dyingBricks
  { s with bricks := r.1, lives := r.2.1,
           livesFlashTimer := r.2.2.1, dyingBricks := r.2.2.2 }

/-- The `if lives <= 0: game_over = True` transition. -/
def gameOverPhase (s : GameState) : GameState :=
  if s.lives ≤ 0 then { s with gameOver := true } else s

/-- The gameplay part of a tick (runs only when not in game over):
ball updates with collision resolution, round completion,
bottom-breach check and the game-over transition. -/
def gameplayStep (sp : List ℕ) (s : GameState) : GameState :=
  gameOverPhase (breachPhase (completionPhase sp (firingPhase s)))

/-- Lives-flash countdown and dying-brick fade, run every tick. -/
def timersPhase (s : GameState) : GameState :=
  let sD := if 0 < s.livesFlashTimer
            then { s with livesFlashTimer := s.livesFlashTimer - 1 } else s
  { sD with dyingBricks :=
      (sD.dyingBricks.map fun p => (p.1, p.2 - 1)).filter fun p => 0 < p.2 }

/-- One iteration of the main loop (drawing omitted): frame increment,
event handling, gameplay, lives-flash countdown, dying-brick fade. -/
def gameTick (es : List GEvent) (sp : List ℕ) (s : GameState) : GameState :=
  let sB := es.foldl (handleEvent sp) { s with frameCount := s.frameCount + 1 }
  timersPhase (if sB.gameOver then sB else gameplayStep sp sB)

/-- Initial state of the script (module-level initialization plus the
initial `spawn_new_row()` call). -/
def initState (sp : List ℕ) : GameState :=
  { level := 1, baseBallCount := getBallCount 1, ballsToFire := [],
    returnedPositions := [], baseX := 150, aimAngle := Real.pi / 4,
    firing := false, launchStart := 0, lives := 3, score := 0, highScore := 0,
    highestLevel := 1, bricks := spawnNewRow sp 1 [], dyingBricks := [],
    livesFlashTimer := 0, frameCount := 0, gameOver := false }

/-- All live bricks sit in legal columns. -/
def ColsOk (bricks : List Brick) : Prop := ∀ b ∈ bricks, b.col < BRICK_COLS

/-- Inductive lives invariant: lives are never negative, and at least one
life remains whenever the game is not over. -/
def LivesInv (s : GameState) : Prop := 0 ≤ s.lives ∧ (s.gameOver = false → 1 ≤ s.lives)

/-- Launched ball moving straight up, one tick away from striking `brick1`. -/
def ball1 : Ball := ⟨125, 304, 0, -12, true, true, 0, 0⟩

/-- A one-hit-point brick in column 2, row 5. -/
def brick1 : Brick := ⟨2, 5, 1, 1⟩

/-- Mid-round state: one launched ball about to destroy `brick1`. -/
def s1 : GameState :=
  { level := 1, baseBallCount := 2, ballsToFire := [ball1], returnedPositions := [],
    baseX := 150, aimAngle := 0, firing := true, launchStart := 0, lives := 3,
    score := 0, highScore := 0, highestLevel := 1, bricks := [brick1],
    dyingBricks := [], livesFlashTimer := 0, frameCount := 100, gameOver := false }

/-- A game-over state reached with session records standing. -/
def s2 : GameState :=
  { level := 5, baseBallCount := 10, ballsToFire := [], returnedPositions := [],
    baseX := 40, aimAngle := 0, firing := false, launchStart := 0, lives := 0,
    score := 30, highScore := 70, highestLevel := 5, bricks := [], dyingBricks := [],
    livesFlashTimer := 0, frameCount := 12, gameOver := true }

/-- Ball used for the C3 witness, travelling horizontally at full speed. -/
def ball3 : Ball := ⟨150, 100, 12, 0, true, true, 0, 0⟩

/-- Brick used for the C3 witness. -/
def brick3 : Brick := ⟨0, 0, 1, 1⟩

/-- Ball hugging the left wall and moving straight up into `brick4`. -/
def ball4 : Ball := ⟨5, 304, 0, -12, true, true, 0, 0⟩

/-- A two-hit-point brick in column 0, row 5, next to the left wall. -/
def brick4 : Brick := ⟨0, 5, 2, 2⟩

/-- Mid-round state: the wall-hugging ball is about to strike `brick4`,
whose collision resolution pushes the center outside the left wall. -/
def s4 : GameState :=
  { level := 1, baseBallCount := 2, ballsToFire := [ball4], returnedPositions := [],
    baseX := 150, aimAngle := 0, firing := true, launchStart := 0, lives := 3,
    score := 0, highScore := 0, highestLevel := 1, bricks := [brick4],
    dyingBricks := [], livesFlashTimer := 0, frameCount := 100, gameOver := false }

/-- An inactive ball for the C4 witness. -/
def ball4b : Ball := ⟨80, 495, 0, 12, false, true, 0, 0⟩

/-- Bricks for the C5 witness: one breaching row 9, one in the swept zone,
one untouched. -/
def bricksC5 : List Brick := [⟨0, 9, 3, 3⟩, ⟨1, 7, 2, 2⟩, ⟨2, 3, 1, 1⟩]

/-- A launched ball that returned at the non-integer position x = 150.5. -/
def ball6 : Ball := ⟨301/2, 495, 0, 12, false, true, 0, 0⟩

/-- Ball already at collision distance of `brick1` (C1 witness). -/
def ballC1 : Ball := ⟨125, 292, 0, -12, true, true, 0, 0⟩

/-- A far-away brick that the C1 witness ball does not touch. -/
def brickFar : Brick := ⟨0, 1, 3, 3⟩

/-- Firing state whose single ball has already returned at x = 150.5, so
the round completes on the next tick. -/
def s6 : GameState :=
  { level := 1, baseBallCount := 2, ballsToFire := [ball6], returnedPositions := [],
    baseX := 150, aimAngle := 0, firing := true, launchStart := 0, lives := 3,
    score := 0, highScore := 0, highestLevel := 1, bricks := [],
    dyingBricks := [], livesFlashTimer := 0, frameCount := 100, gameOver := false }

end Brickz

namespace Brickz

/-! ### Arithmetic and geometry lemmas -/

lemma sqrt144 : Real.sqrt 144 = 12 := by
  rw [show (144:ℝ) = 12^2 by norm_num, Real.sqrt_sq (by norm_num : (0:ℝ) ≤ 12)]

lemma copysign1_sq (x : ℝ) : (copysign1 x)^2 = 1 := by
  rw [copysign1]; split_ifs <;> norm_num

lemma reflect_normSq (dx dy nx ny : ℝ) (hn : nx^2 + ny^2 = 1) :
    (dx - 2*(dx*nx + dy*ny)*nx)^2 + (dy - 2*(dx*nx + dy*ny)*ny)^2 = dx^2 + dy^2 := by
  have h : (dx - 2*(dx*nx + dy*ny)*nx)^2 + (dy - 2*(dx*nx + dy*ny)*ny)^2
      = dx^2 + dy^2 + 4*(dx*nx + dy*ny)^2 * ((nx^2 + ny^2) - 1) := by ring
  rw [h, hn]; ring

lemma reflectRescale_normSq (dx dy nx ny : ℝ) (hn : nx^2 + ny^2 = 1)
    (hv : dx^2 + dy^2 = 144) :
    ((reflectRescale dx dy nx ny).1)^2 + ((reflectRescale dx dy nx ny).2)^2 = 144 := by
  have hr : (dx - 2*(dx*nx + dy*ny)*nx)^2 + (dy - 2*(dx*nx + dy*ny)*ny)^2 = 144 := by
    rw [reflect_normSq dx dy nx ny hn]; exact hv
  have hmag : Real.sqrt ((dx - 2*(dx*nx + dy*ny)*nx)^2 +
      (dy - 2*(dx*nx + dy*ny)*ny)^2) = 12 := by
    rw [hr]; exact sqrt144
  simp only [reflectRescale, hmag, BALL_SPEED]
  rw [if_neg (by norm_num : ¬ (12:ℝ) = 0)]
  rw [div_mul_cancel₀ _ (by norm_num : (12:ℝ) ≠ 0),
      div_mul_cancel₀ _ (by norm_num : (12:ℝ) ≠ 0)]
  exact hr

lemma collisionGeom_unit (ball : Ball) (b : Brick) :
    ((collisionGeom ball b).2.1)^2 + ((collisionGeom ball b).2.2)^2 = 1 := by
  have hdiv : ∀ cdx cdy : ℝ, ¬ Real.sqrt (cdx^2 + cdy^2) = 0 →
      (cdx / Real.sqrt (cdx^2 + cdy^2))^2 + (cdy / Real.sqrt (cdx^2 + cdy^2))^2 = 1 := by
    intro cdx cdy hd
    have harg : (0:ℝ) ≤ cdx^2 + cdy^2 := by positivity
    have hne : cdx^2 + cdy^2 ≠ 0 := fun h0 => hd (by rw [h0, Real.sqrt_zero])
    have hsq : (Real.sqrt (cdx^2 + cdy^2))^2 = cdx^2 + cdy^2 := Real.sq_sqrt harg
    rw [div_pow, div_pow, div_add_div_same, hsq, div_self hne]
  simp only [collisionGeom]
  split_ifs
  all_goals first
    | (rw [copysign1]; split_ifs <;> norm_num)
    | (exact hdiv _ _ (by assumption))
    | norm_num

lemma resolveCollision_speed (ball : Ball) (b : Brick)
    (hv : ball.dx^2 + ball.dy^2 = 144) :
    (resolveCollision ball b).dx^2 + (resolveCollision ball b).dy^2 = 144 := by
  simp only [resolveCollision]
  exact reflectRescale_normSq _ _ _ _ (collisionGeom_unit ball b) hv

lemma update_speed (b : Ball) :
    (Ball.update b).dx^2 + (Ball.update b).dy^2 = b.dx^2 + b.dy^2 := by
  simp only [Ball.update]
  split_ifs <;> ring

lemma mkBall_speed (x y a : ℝ) : (mkBall x y a).dx^2 + (mkBall x y a).dy^2 = 144 := by
  simp only [mkBall, BALL_SPEED]
  have h : (12 * Real.cos a)^2 + (-(12 * Real.sin a))^2
      = 144 * (Real.sin a^2 + Real.cos a^2) := by ring
  rw [h, Real.sin_sq_add_cos_sq]; norm_num

/-! ### C3: speed invariance -/

/-- C3: for every ball whose speed is `BALL_SPEED`, the magnitude
`sqrt(dx^2+dy^2)` of its velocity still equals `BALL_SPEED` immediately
after the per-tick wall-bounce update and immediately after any brick
reflection in collision resolution; moreover every freshly constructed
ball starts at that speed. -/
theorem C3_speed_invariance (b : Ball) (k : Brick)
    (h : Real.sqrt (b.dx^2 + b.dy^2) = BALL_SPEED) :
    Real.sqrt ((Ball.update b).dx^2 + (Ball.update b).dy^2) = BALL_SPEED ∧
    Real.sqrt ((resolveCollision b k).dx^2 + (resolveCollision b k).dy^2) = BALL_SPEED ∧
    ∀ x y a : ℝ, Real.sqrt ((mkBall x y a).dx^2 + (mkBall x y a).dy^2) = BALL_SPEED := by
  have h0 : (0:ℝ) ≤ b.dx^2 + b.dy^2 := by positivity
  have hsq : b.dx^2 + b.dy^2 = 144 := by
    have h2 := Real.sq_sqrt h0
    rw [h] at h2
    rw [← h2]; norm_num [BALL_SPEED]
  refine ⟨?_, ?_, ?_⟩
  · rw [update_speed, hsq, BALL_SPEED]; exact sqrt144
  · rw [resolveCollision_speed b k hsq, BALL_SPEED]; exact sqrt144
  · intro x y a; rw [mkBall_speed, BALL_SPEED]; exact sqrt144

/-- Witness for C3 at a concrete ball and brick. -/
theorem C3_speed_invariance_witness :
    Real.sqrt ((Ball.update ball3).dx^2 + (Ball.update ball3).dy^2) = BALL_SPEED ∧
    Real.sqrt ((resolveCollision ball3 brick3).dx^2 +
      (resolveCollision ball3 brick3).dy^2) = BALL_SPEED := by
  have h : Real.sqrt (ball3.dx^2 + ball3.dy^2) = BALL_SPEED := by
    norm_num [ball3, BALL_SPEED, sqrt144]
  exact ⟨(C3_speed_invariance ball3 brick3 h).1, (C3_speed_invariance ball3 brick3 h).2.1⟩

/-! ### C9: collision loop cap -/

lemma collisionLoop_iters_le (fuel : ℕ) :
    ∀ ball bricks score high iters,
      (collisionLoop fuel ball bricks score high iters).2.2.2.2 ≤ iters + fuel := by
  induction fuel with
  | zero => intro ball bricks score high iters; simp [collisionLoop]
  | succ n ih =>
    intro ball bricks score high iters
    simp only [collisionLoop]
    cases hs : scanHit ball bricks score high with
    | none => simp
    | some r =>
      obtain ⟨b2, br2, s2, h2⟩ := r
      have h3 := ih b2 br2 s2 h2 (iters + 1)
      simpa using h3.trans (by omega)

/-- C9: the per-ball collision-resolution loop used for every launched
active ball performs at most 10 iterations; on fuel exhaustion it returns
the current state unchanged (silent stop, no error). -/
theorem C9_collision_loop_cap (ball : Ball) (bricks : List Brick) (score high : ℕ) :
    (runCollisions ball bricks score high).2.2.2.2 ≤ 10 ∧
    ∀ b2 br2 s2 h2 i2, collisionLoop 0 b2 br2 s2 h2 i2 = (b2, br2, s2, h2, i2) := by
  constructor
  · simpa [runCollisions] using collisionLoop_iters_le 10 ball bricks score high 0
  · intro b2 br2 s2 h2 i2; rfl

/-! ### C5: bottom breach -/

/-- C5: whenever some live brick has reached row 9 (`MAX_ROWS - 1`),
the bottom-breach check removes exactly one life, starts the 30-tick
lives flash, and moves every brick with row at least 7 (`MAX_ROWS - 3`)
from the live set to the dying list with a 30-tick fade timer. -/
theorem C5_bottom_breach (bricks : List Brick) (lives flash : ℤ)
    (dying : List (Brick × ℤ)) (h : ∃ b ∈ bricks, 9 ≤ b.row) :
    checkBricksBottom bricks lives flash dying =
      (bricks.filter (fun b => b.row < 7),
       lives - 1, 30,
       dying ++ (bricks.filter fun b => 7 ≤ b.row).map fun b => (b, 30)) := by
  obtain ⟨b, hb, hrow⟩ := h
  have hc : bricks.any (fun b => 9 ≤ b.row) = true :=
    List.any_eq_true.2 ⟨b, hb, by simpa using hrow⟩
  rw [checkBricksBottom, if_pos hc]
  norm_num [removeBottomRows, MAX_ROWS]

/-- Witness for C5 on a concrete brick configuration. -/
theorem C5_bottom_breach_witness :
    checkBricksBottom bricksC5 3 0 [] =
      ([⟨2, 3, 1, 1⟩], 2, 30, [(⟨0, 9, 3, 3⟩, 30), (⟨1, 7, 2, 2⟩, 30)]) := by
  rw [C5_bottom_breach bricksC5 3 0 []
    ⟨⟨0, 9, 3, 3⟩, by simp [bricksC5], by norm_num⟩]
  decide

/-! ### C2: new game (code bug: highest level is reset) -/

/-- C2 (code bug): `new_game` on a game-over state resets level, shot
count, balls, lives, score, bricks and the fade list, and preserves the
high score, but it also resets `highest_level` to 1 even though its own
docstring and the spec say the session highest level persists. -/
theorem C2_new_game_resets_highest_level :
    s2.highestLevel = 5 ∧ s2.highScore = 70 ∧
    (newGame [2] s2).highestLevel = 1 ∧ (newGame [2] s2).highScore = 70 ∧
    (newGame [2] s2).level = 1 ∧ (newGame [2] s2).baseBallCount = 2 ∧
    (newGame [2] s2).ballsToFire = [] ∧ (newGame [2] s2).lives = 3 ∧
    (newGame [2] s2).score = 0 ∧ (newGame [2] s2).dyingBricks = [] ∧
    (newGame [2] s2).bricks = spawnNewRow [2] 1 [] ∧
    handleEvent [2] s2 GEvent.keySpace = newGame [2] s2 := by
  exact ⟨rfl, rfl, rfl, rfl, rfl, rfl, rfl, rfl, rfl, rfl, rfl, rfl⟩

end Brickz

namespace Brickz

/-! ### C1: destruction of a one-hit-point brick -/

lemma scanHit_append (ball : Ball) (pre : List Brick) (b : Brick) (post : List Brick)
    (score high : ℕ) (hpre : ∀ p ∈ pre, ¬ Collides ball p) (hb : Collides ball b) :
    scanHit ball (pre ++ b :: post) score high =
      some (resolveCollision { ball with cooldown := 10 } { b with value := b.value - 1 },
        pre ++ (if b.value - 1 ≤ 0 then post else { b with value := b.value - 1 } :: post),
        score + 10, max high (score + 10)) := by
  induction pre with
  | nil =>
    rw [List.nil_append, scanHit, if_pos hb]
    simp
  | cons p rest ih =>
    rw [List.cons_append, scanHit, if_neg (hpre p (by simp))]
    rw [ih (fun q hq => hpre q (by simp [hq]))]
    simp

/-- C1 (amended): a brick with one hit point that is the first brick hit in a
scan pass is removed from the live brick list in that same pass, and the
score increases by exactly 10 (with the high score updated); no dying-brick
entry is created by collision removal. -/
theorem C1_one_hit_brick_removed (ball : Ball) (pre post : List Brick) (b : Brick)
    (score high : ℕ) (hpre : ∀ p ∈ pre, ¬ Collides ball p) (hb : Collides ball b)
    (hv : b.value = 1) :
    scanHit ball (pre ++ b :: post) score high =
      some (resolveCollision { ball with cooldown := 10 } { b with value := 0 },
        pre ++ post, score + 10, max high (score + 10)) := by
  rw [scanHit_append ball pre b post score high hpre hb, hv]
  norm_num

/-- Witness for C1 (amended) on a concrete ball and bricks. -/
theorem C1_one_hit_brick_removed_witness :
    scanHit ballC1 [brickFar, brick1] 0 0 =
      some (resolveCollision { ballC1 with cooldown := 10 } { brick1 with value := 0 },
        [brickFar], 0 + 10, max 0 (0 + 10)) := by
  have h := C1_one_hit_brick_removed ballC1 [brickFar] [] brick1 0 0
    (by
      intro p hp
      simp only [List.mem_singleton] at hp
      subst hp
      norm_num [Collides, closestPt, clampR, rectLeft, rectTop, rectRight,
        rectBottom, ballC1, brickFar, BALL_RADIUS])
    (by
      norm_num [Collides, closestPt, clampR, rectLeft, rectTop, rectRight,
        rectBottom, ballC1, brick1, BALL_RADIUS])
    (by norm_num [brick1])
  simpa using h

/-- C1 counterexample: a tick in which a one-hit-point brick is struck and
removed (score increases by 10) while the dying-brick list stays empty,
contradicting the claimed creation of a 30-tick fade entry. -/
theorem C1_counterexample :
    (gameTick [] [0] s1).bricks = [] ∧
    (gameTick [] [0] s1).score = s1.score + 10 ∧
    (gameTick [] [0] s1).dyingBricks = [] := by
  norm_num [gameTick, gameplayStep, firingPhase, completionPhase, breachPhase,
    gameOverPhase, timersPhase, s1, ball1, brick1, markLaunched, processBalls,
    processBall, runCollisions, collisionLoop, scanHit, Ball.update, Collides,
    closestPt, clampR, rectLeft, rectTop, rectRight, rectBottom, InsideRect,
    collisionGeom, reflectRescale, resolveCollision, checkBricksBottom,
    removeBottomRows, resetForNextTurn, BALL_RADIUS, BALL_SPEED, SCREEN_WIDTH,
    SCREEN_HEIGHT, MAX_ROWS, sqrt144]

/-! ### C4: boundary containment -/

/-- C4 (amended): immediately after the per-tick kinematic update, every
ball's center satisfies the wall bounds, and a ball reaching the bottom is
deactivated there; an inactive ball is never moved again by per-ball
processing.  (The subsequent collision resolution can move the center
outside these bounds, see the counterexample.) -/
theorem C4_boundary_after_update (b : Ball) (bricks : List Brick) (score high : ℕ) :
    (BALL_RADIUS ≤ (Ball.update b).x ∧
      (Ball.update b).x ≤ SCREEN_WIDTH - BALL_RADIUS ∧
      BALL_RADIUS ≤ (Ball.update b).y) ∧
    ((Ball.update b).active = true → b.active = true ∧
      (Ball.update b).y + BALL_RADIUS < SCREEN_HEIGHT) ∧
    (b.active = false → processBall bricks score high b = (b, bricks, score, high)) := by
  refine ⟨?_, ?_, ?_⟩
  · simp only [Ball.update, BALL_RADIUS, SCREEN_WIDTH, SCREEN_HEIGHT]
    refine ⟨?_, ?_, ?_⟩ <;> split_ifs <;> linarith
  · simp only [Ball.update, BALL_RADIUS, SCREEN_HEIGHT]
    intro h
    split_ifs at h ⊢ <;> simp_all
  · intro h
    simp [processBall, h]

/-- Witness for C4 (amended): bounds after an update of a concrete ball, and
an inactive concrete ball left untouched. -/
theorem C4_boundary_after_update_witness :
    (BALL_RADIUS ≤ (Ball.update ball1).x ∧
      (Ball.update ball1).x ≤ SCREEN_WIDTH - BALL_RADIUS ∧
      BALL_RADIUS ≤ (Ball.update ball1).y) ∧
    processBall [] 0 0 ball4b = (ball4b, [], 0, 0) :=
  ⟨(C4_boundary_after_update ball1 [] 0 0).1,
   (C4_boundary_after_update ball4b [] 0 0).2.2 rfl⟩

/-- C4 counterexample: a reachable tick configuration after which an active
ball's center ends the tick at x = -4 < BALL_RADIUS: collision resolution
against a wall-adjacent brick pushes the center outside the playfield. -/
theorem C4_counterexample :
    ∃ b, (gameTick [] [0] s4).ballsToFire = [b] ∧ b.active = true ∧
      b.x < BALL_RADIUS := by
  refine ⟨⟨-4, 292, 0, -12, true, true, 0, 10⟩, ?_, rfl, by norm_num [BALL_RADIUS]⟩
  norm_num [gameTick, gameplayStep, firingPhase, completionPhase, breachPhase,
    gameOverPhase, timersPhase, s4, ball4, brick4, markLaunched, processBalls,
    processBall, runCollisions, collisionLoop, scanHit, Ball.update, Collides,
    closestPt, clampR, rectLeft, rectTop, rectRight, rectBottom, InsideRect,
    collisionGeom, reflectRescale, resolveCollision, checkBricksBottom,
    removeBottomRows, resetForNextTurn, BALL_RADIUS, BALL_SPEED, SCREEN_WIDTH,
    SCREEN_HEIGHT, MAX_ROWS, sqrt144]

end Brickz

namespace Brickz

/-! ### C6: round completion -/

lemma processBall_inactive (bricks : List Brick) (score high : ℕ) (b : Ball)
    (h : b.active = false) :
    processBall bricks score high b = (b, bricks, score, high) := by
  simp [processBall, h]

lemma processBalls_inactive (balls : List Ball) :
    ∀ bricks score high, (∀ b ∈ balls, b.active = false) →
      processBalls balls bricks score high = (balls, bricks, score, high) := by
  induction balls with
  | nil => intro bricks score high h; rfl
  | cons b rest ih =>
    intro bricks score high h
    simp only [processBalls, processBall_inactive bricks score high b (h b (by simp)),
      ih bricks score high (fun q hq => h q (by simp [hq]))]

lemma checkBricksBottom_quiet (bricks : List Brick) (lives flash : ℤ)
    (dying : List (Brick × ℤ)) (h : ∀ b ∈ bricks, b.row < 9) :
    checkBricksBottom bricks lives flash dying = (bricks, lives, flash, dying) := by
  have hc : bricks.any (fun b => 9 ≤ b.row) = false := by
    rw [List.any_eq_false]
    intro b hb
    have := h b hb
    simp
    omega
  rw [checkBricksBottom, hc]
  simp

lemma breachPhase_quiet (s : GameState) (h : ∀ b ∈ s.bricks, b.row < 9) :
    breachPhase s = s := by
  rw [breachPhase, checkBricksBottom_quiet s.bricks s.lives s.livesFlashTimer
    s.dyingBricks h]

lemma gameOverPhase_keeps (s : GameState) :
    (gameOverPhase s).firing = s.firing ∧ (gameOverPhase s).level = s.level ∧
    (gameOverPhase s).baseX = s.baseX ∧ (gameOverPhase s).bricks = s.bricks ∧
    (gameOverPhase s).ballsToFire = s.ballsToFire ∧
    (gameOverPhase s).score = s.score ∧ (gameOverPhase s).highScore = s.highScore ∧
    (gameOverPhase s).highestLevel = s.highestLevel ∧
    (gameOverPhase s).lives = s.lives := by
  rw [gameOverPhase]; split_ifs <;> simp

lemma timersPhase_keeps (s : GameState) :
    (timersPhase s).firing = s.firing ∧ (timersPhase s).level = s.level ∧
    (timersPhase s).baseX = s.baseX ∧ (timersPhase s).bricks = s.bricks ∧
    (timersPhase s).ballsToFire = s.ballsToFire ∧
    (timersPhase s).score = s.score ∧ (timersPhase s).highScore = s.highScore ∧
    (timersPhase s).highestLevel = s.highestLevel ∧
    (timersPhase s).lives = s.lives ∧ (timersPhase s).gameOver = s.gameOver := by
  rw [timersPhase]; split_ifs <;> simp

lemma gameplayStep_completion (sp : List ℕ) (s : GameState) (x0 : ℝ) (xs : List ℝ)
    (hf : s.firing = true)
    (hall : ∀ b ∈ markLaunched s.frameCount s.ballsToFire,
        b.launched = true ∧ b.active = false)
    (hret : s.returnedPositions = [])
    (hmap : (markLaunched s.frameCount s.ballsToFire).map Ball.x = x0 :: xs)
    (hrows : ∀ b ∈ s.bricks, b.row + 1 < 9) :
    gameplayStep sp s = gameOverPhase
      { s with
        level := s.level + 1
        baseBallCount := getBallCount (s.level + 1)
        ballsToFire := []
        returnedPositions := []
        baseX := max 5 (min 295 (pyInt x0))
        firing := false
        highestLevel := if s.highestLevel < s.level + 1 then s.level + 1
                        else s.highestLevel
        bricks := spawnNewRow sp (s.level + 1) (moveBricksDown s.bricks)
        frameCount := 0 } := by
  have hinact : ∀ b ∈ markLaunched s.frameCount s.ballsToFire, b.active = false :=
    fun b hb => (hall b hb).2
  have hallb : (markLaunched s.frameCount s.ballsToFire).all
      (fun b => b.launched && !b.active) = true := by
    rw [List.all_eq_true]
    intro b hb
    rw [(hall b hb).1, (hall b hb).2]
    rfl
  have hfire : firingPhase s =
      { s with ballsToFire := markLaunched s.frameCount s.ballsToFire } := by
    rw [firingPhase, if_pos hf]
    simp only [processBalls_inactive _ _ _ _ hinact]
  have hcomp : completionPhase sp
        { s with ballsToFire := markLaunched s.frameCount s.ballsToFire } =
      { s with
        level := s.level + 1
        baseBallCount := getBallCount (s.level + 1)
        ballsToFire := []
        returnedPositions := []
        baseX := max 5 (min 295 (pyInt x0))
        firing := false
        highestLevel := if s.highestLevel < s.level + 1 then s.level + 1
                        else s.highestLevel
        bricks := spawnNewRow sp (s.level + 1) (moveBricksDown s.bricks)
        frameCount := 0 } := by
    rw [completionPhase, if_pos]
    · simp only [resetForNextTurn, hret, hmap, List.nil_append]
    · simp [hf, hallb]
  have hrows2 : ∀ b ∈ spawnNewRow sp (s.level + 1) (moveBricksDown s.bricks),
      b.row < 9 := by
    intro b hb
    rw [spawnNewRow, List.mem_append] at hb
    rcases hb with hb | hb
    · rw [moveBricksDown, List.mem_map] at hb
      obtain ⟨a, ha, rfl⟩ := hb
      exact hrows a ha
    · rw [List.mem_map] at hb
      obtain ⟨c, hc, rfl⟩ := hb
      norm_num
  rw [gameplayStep, hfire, hcomp, breachPhase_quiet _ (by simpa using hrows2)]

/-- C6 (amended): in the tick after which every ball of the shot list is
launched and inactive, `firing` turns false with exactly one level
increment, the grid descends one row before the new row is spawned, and
the next launch origin is the integer truncation of the first recorded
returned x-position clamped to `[ballRadius, width - ballRadius]`. -/
theorem C6_round_completion (sp : List ℕ) (s : GameState) (x0 : ℝ) (xs : List ℝ)
    (hgo : s.gameOver = false) (hf : s.firing = true)
    (hall : ∀ b ∈ markLaunched (s.frameCount + 1) s.ballsToFire,
        b.launched = true ∧ b.active = false)
    (hret : s.returnedPositions = [])
    (hmap : (markLaunched (s.frameCount + 1) s.ballsToFire).map Ball.x = x0 :: xs)
    (hrows : ∀ b ∈ s.bricks, b.row + 1 < 9) :
    (gameTick [] sp s).firing = false ∧
    (gameTick [] sp s).level = s.level + 1 ∧
    (gameTick [] sp s).baseX = max 5 (min 295 (pyInt x0)) ∧
    (gameTick [] sp s).bricks = spawnNewRow sp (s.level + 1) (moveBricksDown s.bricks) ∧
    (gameTick [] sp s).ballsToFire = [] := by
  have hgo2 : ({ s with frameCount := s.frameCount + 1 } : GameState).gameOver = false :=
    hgo
  have h1 : gameTick [] sp s =
      timersPhase (gameplayStep sp { s with frameCount := s.frameCount + 1 }) := by
    simp [gameTick, hgo2]
  have h2 := gameplayStep_completion sp { s with frameCount := s.frameCount + 1 } x0 xs
    hf hall hret hmap hrows
  rw [h1, h2]
  refine ⟨?_, ?_, ?_, ?_, ?_⟩
  · rw [(timersPhase_keeps _).1, (gameOverPhase_keeps _).1]
  · rw [(timersPhase_keeps _).2.1, (gameOverPhase_keeps _).2.1]
  · rw [(timersPhase_keeps _).2.2.1, (gameOverPhase_keeps _).2.2.1]
  · rw [(timersPhase_keeps _).2.2.2.1, (gameOverPhase_keeps _).2.2.2.1]
  · rw [(timersPhase_keeps _).2.2.2.2.1, (gameOverPhase_keeps _).2.2.2.2.1]

/-- Witness for C6 (amended) on the concrete completing state `s6`. -/
theorem C6_round_completion_witness :
    (gameTick [] [3] s6).firing = false ∧
    (gameTick [] [3] s6).level = s6.level + 1 ∧
    (gameTick [] [3] s6).baseX = max 5 (min 295 (pyInt (301/2))) ∧
    (gameTick [] [3] s6).bricks =
      spawnNewRow [3] (s6.level + 1) (moveBricksDown s6.bricks) ∧
    (gameTick [] [3] s6).ballsToFire = [] := by
  refine C6_round_completion [3] s6 (301/2) [] rfl rfl ?_ rfl ?_ ?_
  · intro b hb
    simp [markLaunched, s6, ball6] at hb
    subst hb
    exact ⟨rfl, rfl⟩
  · simp [markLaunched, s6, ball6]
  · intro b hb
    simp [s6] at hb

/-- C6 counterexample: the single ball returns at x = 150.5, the claim says
the next origin is that value clamped into [5, 295] (i.e. 150.5), but the
code truncates to the integer 150 before clamping. -/
theorem C6_counterexample :
    s6.ballsToFire.map Ball.x = [301/2] ∧
    (gameTick [] [3] s6).baseX = 150 ∧
    clampR (301/2) BALL_RADIUS (SCREEN_WIDTH - BALL_RADIUS) ≠ (150 : ℝ) := by
  refine ⟨by simp [s6, ball6], ?_, by norm_num [clampR, BALL_RADIUS, SCREEN_WIDTH]⟩
  norm_num [gameTick, gameplayStep, firingPhase, completionPhase, breachPhase,
    gameOverPhase, timersPhase, s6, ball6, markLaunched, processBalls,
    processBall, runCollisions, collisionLoop, scanHit, Ball.update,
    checkBricksBottom, removeBottomRows, resetForNextTurn, pyInt, getBallCount,
    spawnNewRow, moveBricksDown, BALL_RADIUS, BALL_SPEED, SCREEN_WIDTH,
    SCREEN_HEIGHT, MAX_ROWS]

end Brickz

namespace Brickz

/-! ### Projection lemmas for the tick phases -/

lemma gameTick_eq (es : List GEvent) (sp : List ℕ) (s : GameState) :
    gameTick es sp s =
      timersPhase
        (if (es.foldl (handleEvent sp) { s with frameCount := s.frameCount + 1 }).gameOver
         then es.foldl (handleEvent sp) { s with frameCount := s.frameCount + 1 }
         else gameplayStep sp
           (es.foldl (handleEvent sp) { s with frameCount := s.frameCount + 1 })) := rfl

lemma timersPhase_score (s : GameState) : (timersPhase s).score = s.score := by
  rw [timersPhase]; split_ifs <;> rfl

lemma timersPhase_highScore (s : GameState) :
    (timersPhase s).highScore = s.highScore := by
  rw [timersPhase]; split_ifs <;> rfl

lemma timersPhase_lives (s : GameState) : (timersPhase s).lives = s.lives := by
  rw [timersPhase]; split_ifs <;> rfl

lemma timersPhase_gameOver (s : GameState) :
    (timersPhase s).gameOver = s.gameOver := by
  rw [timersPhase]; split_ifs <;> rfl

lemma timersPhase_bricks (s : GameState) : (timersPhase s).bricks = s.bricks := by
  rw [timersPhase]; split_ifs <;> rfl

lemma gameOverPhase_score (s : GameState) : (gameOverPhase s).score = s.score := by
  rw [gameOverPhase]; split_ifs <;> rfl

lemma gameOverPhase_highScore (s : GameState) :
    (gameOverPhase s).highScore = s.highScore := by
  rw [gameOverPhase]; split_ifs <;> rfl

lemma gameOverPhase_lives (s : GameState) : (gameOverPhase s).lives = s.lives := by
  rw [gameOverPhase]; split_ifs <;> rfl

lemma gameOverPhase_bricks (s : GameState) : (gameOverPhase s).bricks = s.bricks := by
  rw [gameOverPhase]; split_ifs <;> rfl

lemma gameOverPhase_go (s : GameState) (h : (gameOverPhase s).gameOver = false) :
    s.gameOver = false ∧ 0 < s.lives := by
  rw [gameOverPhase] at h
  split_ifs at h with hl
  exact ⟨h, by omega⟩

lemma resetForNextTurn_keeps (sp : List ℕ) (t : GameState) :
    (resetForNextTurn sp t).score = t.score ∧
    (resetForNextTurn sp t).highScore = t.highScore ∧
    (resetForNextTurn sp t).lives = t.lives ∧
    (resetForNextTurn sp t).gameOver = t.gameOver := by
  rw [resetForNextTurn]
  cases t.returnedPositions <;> simp

lemma resetForNextTurn_bricks (sp : List ℕ) (t : GameState) :
    (resetForNextTurn sp t).bricks =
      spawnNewRow sp (t.level + 1) (moveBricksDown t.bricks) := by
  rw [resetForNextTurn]
  cases t.returnedPositions <;> simp

lemma completionPhase_keeps (sp : List ℕ) (s : GameState) :
    (completionPhase sp s).score = s.score ∧
    (completionPhase sp s).highScore = s.highScore ∧
    (completionPhase sp s).lives = s.lives ∧
    (completionPhase sp s).gameOver = s.gameOver := by
  rw [completionPhase]
  split_ifs with h
  · obtain ⟨k1, k2, k3, k4⟩ := resetForNextTurn_keeps sp
      { s with returnedPositions := s.returnedPositions ++ s.ballsToFire.map Ball.x }
    exact ⟨k1, k2, k3, k4⟩
  · exact ⟨rfl, rfl, rfl, rfl⟩

lemma checkBricksBottom_props (bricks : List Brick) (lives flash : ℤ)
    (dying : List (Brick × ℤ)) :
    (∀ b ∈ (checkBricksBottom bricks lives flash dying).1, b ∈ bricks) ∧
    lives - 1 ≤ (checkBricksBottom bricks lives flash dying).2.1 ∧
    (checkBricksBottom bricks lives flash dying).2.1 ≤ lives := by
  rw [checkBricksBottom]
  split_ifs
  · refine ⟨?_, ?_, ?_⟩
    · intro b hb
      simp only [removeBottomRows] at hb
      exact (List.mem_filter.1 hb).1
    · exact le_refl _
    · show lives - 1 ≤ lives
      omega
  · refine ⟨fun b hb => hb, ?_, le_refl _⟩
    show lives - 1 ≤ lives
    omega

lemma breachPhase_props (s : GameState) :
    (breachPhase s).score = s.score ∧ (breachPhase s).highScore = s.highScore ∧
    (breachPhase s).gameOver = s.gameOver ∧
    s.lives - 1 ≤ (breachPhase s).lives ∧ (breachPhase s).lives ≤ s.lives ∧
    (∀ b ∈ (breachPhase s).bricks, b ∈ s.bricks) := by
  obtain ⟨c1, c2, c3⟩ :=
    checkBricksBottom_props s.bricks s.lives s.livesFlashTimer s.dyingBricks
  exact ⟨rfl, rfl, rfl, c2, c3, c1⟩

/-! ### Score and column facts about the collision scan and loop -/

lemma scanHit_score (ball : Ball) (bricks : List Brick) :
    ∀ score high r, scanHit ball bricks score high = some r →
      r.2.2.1 = score + 10 ∧ r.2.2.2 = max high (score + 10) := by
  induction bricks with
  | nil => intro score high r h; simp [scanHit] at h
  | cons b rest ih =>
    intro score high r hr
    rw [scanHit] at hr
    split_ifs at hr with hc
    · have := (Option.some.inj hr).symm
      subst this
      exact ⟨rfl, rfl⟩
    · cases hs : scanHit ball rest score high with
      | none => rw [hs] at hr; exact absurd hr (by simp)
      | some r2 =>
        obtain ⟨bb, rr, ss, hh⟩ := r2
        rw [hs] at hr
        have h2 := ih score high (bb, rr, ss, hh) hs
        have hreq := (Option.some.inj hr).symm
        subst hreq
        simpa using h2

lemma scanHit_cols (ball : Ball) (bricks : List Brick) :
    ∀ score high r, scanHit ball bricks score high = some r →
      ColsOk bricks → ColsOk r.2.1 := by
  induction bricks with
  | nil => intro score high r h; simp [scanHit] at h
  | cons b rest ih =>
    intro score high r hr hcols
    have hb : b.col < BRICK_COLS := hcols b (by simp)
    have hrest : ColsOk rest := fun q hq => hcols q (by simp [hq])
    rw [scanHit] at hr
    split_ifs at hr with hc
    · have := (Option.some.inj hr).symm
      subst this
      show ColsOk (if ({ b with value := b.value - 1 } : Brick).value ≤ 0 then rest
        else { b with value := b.value - 1 } :: rest)
      split_ifs with hv
      · exact hrest
      · intro q hq
        rcases List.mem_cons.1 hq with rfl | hq2
        · exact hb
        · exact hrest q hq2
    · cases hs : scanHit ball rest score high with
      | none => rw [hs] at hr; exact absurd hr (by simp)
      | some r2 =>
        obtain ⟨bb, rr, ss, hh⟩ := r2
        rw [hs] at hr
        have h2 := ih score high (bb, rr, ss, hh) hs hrest
        have hreq := (Option.some.inj hr).symm
        subst hreq
        intro q hq
        rcases List.mem_cons.1 hq with rfl | hq2
        · exact hb
        · exact h2 q hq2

lemma collisionLoop_invariant (fuel : ℕ) :
    ∀ ball bricks score high iters,
      score ≤ (collisionLoop fuel ball bricks score high iters).2.2.1 ∧
      (score ≤ high → (collisionLoop fuel ball bricks score high iters).2.2.1 ≤
        (collisionLoop fuel ball bricks score high iters).2.2.2.1) ∧
      (ColsOk bricks → ColsOk (collisionLoop fuel ball bricks score high iters).2.1) := by
  induction fuel with
  | zero =>
    intro ball bricks score high iters
    exact ⟨le_refl _, fun h => h, fun h => h⟩
  | succ n ih =>
    intro ball bricks score high iters
    simp only [collisionLoop]
    cases hs : scanHit ball bricks score high with
    | none => exact ⟨le_refl _, fun h => h, fun h => h⟩
    | some r =>
      obtain ⟨b2, br2, s2, h2⟩ := r
      have hsc := scanHit_score ball bricks score high (b2, br2, s2, h2) hs
      have hcl := scanHit_cols ball bricks score high (b2, br2, s2, h2) hs
      obtain ⟨i1, i2, i3⟩ := ih b2 br2 s2 h2 (iters + 1)
      have e1 : s2 = score + 10 := hsc.1
      have e2 : h2 = max high (score + 10) := hsc.2
      refine ⟨le_trans (by omega) i1, fun _ => i2 (by rw [e1, e2]; exact le_max_right _ _),
        fun hc => i3 (hcl hc)⟩

lemma processBall_invariant (bricks : List Brick) (score high : ℕ) (ball : Ball) :
    score ≤ (processBall bricks score high ball).2.2.1 ∧
    (score ≤ high → (processBall bricks score high ball).2.2.1 ≤
      (processBall bricks score high ball).2.2.2) ∧
    (ColsOk bricks → ColsOk (processBall bricks score high ball).2.1) := by
  rw [processBall]
  split_ifs with h
  · obtain ⟨i1, i2, i3⟩ :=
      collisionLoop_invariant 10 (Ball.update ball) bricks score high 0
    exact ⟨i1, i2, i3⟩
  · exact ⟨le_refl _, fun h2 => h2, fun h2 => h2⟩

lemma processBalls_invariant (balls : List Ball) :
    ∀ bricks score high,
      score ≤ (processBalls balls bricks score high).2.2.1 ∧
      (score ≤ high → (processBalls balls bricks score high).2.2.1 ≤
        (processBalls balls bricks score high).2.2.2) ∧
      (ColsOk bricks → ColsOk (processBalls balls bricks score high).2.1) := by
  induction balls with
  | nil => intro bricks score high; exact ⟨le_refl _, fun h => h, fun h => h⟩
  | cons ball rest ih =>
    intro bricks score high
    simp only [processBalls]
    obtain ⟨p1, p2, p3⟩ := processBall_invariant bricks score high ball
    obtain ⟨q1, q2, q3⟩ := ih (processBall bricks score high ball).2.1
      (processBall bricks score high ball).2.2.1
      (processBall bricks score high ball).2.2.2
    exact ⟨le_trans p1 q1, fun h => q2 (p2 h), fun hc => q3 (p3 hc)⟩

lemma firingPhase_props (s : GameState) :
    s.score ≤ (firingPhase s).score ∧
    (s.score ≤ s.highScore → (firingPhase s).score ≤ (firingPhase s).highScore) ∧
    (ColsOk s.bricks → ColsOk (firingPhase s).bricks) ∧
    (firingPhase s).lives = s.lives ∧ (firingPhase s).gameOver = s.gameOver := by
  rw [firingPhase]
  split_ifs with h
  · obtain ⟨p1, p2, p3⟩ := processBalls_invariant
      (markLaunched s.frameCount s.ballsToFire) s.bricks s.score s.highScore
    exact ⟨p1, p2, p3, rfl, rfl⟩
  · exact ⟨le_refl _, fun h2 => h2, fun h2 => h2, rfl, rfl⟩

/-! ### Event handling lemmas -/

lemma handleEvent_highScore (sp : List ℕ) (s : GameState) (e : GEvent) :
    (handleEvent sp s e).highScore = s.highScore := by
  rw [handleEvent.eq_def]
  split_ifs <;> cases e <;> simp [fireBalls, newGame]

lemma handleEvent_scoreInv (sp : List ℕ) (s : GameState) (e : GEvent)
    (h : s.score ≤ s.highScore) :
    (handleEvent sp s e).score ≤ (handleEvent sp s e).highScore := by
  rw [handleEvent.eq_def]
  split_ifs <;> cases e <;> simp [fireBalls, newGame, h]

lemma foldl_events_scoreInv (sp : List ℕ) (es : List GEvent) :
    ∀ s : GameState, s.score ≤ s.highScore →
      (es.foldl (handleEvent sp) s).score ≤ (es.foldl (handleEvent sp) s).highScore := by
  induction es with
  | nil => exact fun s h => h
  | cons e rest ih => exact fun s h => ih _ (handleEvent_scoreInv sp s e h)

lemma handleEvent_score_quiet (sp : List ℕ) (s : GameState) (e : GEvent)
    (h : s.gameOver = true → e ≠ GEvent.keySpace) :
    (handleEvent sp s e).score = s.score ∧
    (handleEvent sp s e).gameOver = s.gameOver := by
  rw [handleEvent.eq_def]
  by_cases hg : s.gameOver = true
  · rw [if_neg (by simp [hg])]
    cases e with
    | keySpace => exact absurd rfl (h hg)
    | keyLeft => exact ⟨rfl, rfl⟩
    | keyRight => exact ⟨rfl, rfl⟩
    | mouseMotion mx my => exact ⟨rfl, rfl⟩
  · have hg2 : s.gameOver = false := by simpa using hg
    rw [if_pos hg2]
    cases e with
    | keySpace => split_ifs <;> exact ⟨rfl, rfl⟩
    | keyLeft => exact ⟨rfl, rfl⟩
    | keyRight => exact ⟨rfl, rfl⟩
    | mouseMotion mx my => exact ⟨rfl, rfl⟩

lemma foldl_events_score_quiet (sp : List ℕ) (es : List GEvent) :
    ∀ s : GameState, (s.gameOver = true → GEvent.keySpace ∉ es) →
      (es.foldl (handleEvent sp) s).score = s.score ∧
      (es.foldl (handleEvent sp) s).gameOver = s.gameOver := by
  induction es with
  | nil => intro s h; exact ⟨rfl, rfl⟩
  | cons e rest ih =>
    intro s h
    have he := handleEvent_score_quiet sp s e
      (fun hg hee => h hg (by simp [hee]))
    have ht := ih (handleEvent sp s e)
      (by rw [he.2]; intro hg hm; exact h hg (by simp [hm]))
    simp only [List.foldl_cons]
    exact ⟨ht.1.trans he.1, ht.2.trans he.2⟩

/-! ### C7: score monotonicity and high score -/

/-- C7: the initial session state satisfies `highScore ≥ score`; every tick
preserves `highScore ≥ score`; and in any tick that contains no new-game
request (a SPACE press while in game over), the score does not decrease. -/
theorem C7_score_monotonicity (sp0 sp : List ℕ) (s : GameState) (es : List GEvent) :
    (initState sp0).score ≤ (initState sp0).highScore ∧
    (s.score ≤ s.highScore →
      (gameTick es sp s).score ≤ (gameTick es sp s).highScore) ∧
    ((s.gameOver = true → GEvent.keySpace ∉ es) →
      s.score ≤ (gameTick es sp s).score) := by
  refine ⟨le_refl _, ?_, ?_⟩
  · intro h
    rw [gameTick_eq]
    set sB := es.foldl (handleEvent sp) { s with frameCount := s.frameCount + 1 }
      with hsB
    have hBinv : sB.score ≤ sB.highScore := foldl_events_scoreInv sp es _ h
    by_cases hgo : sB.gameOver
    · rw [if_pos hgo, timersPhase_score, timersPhase_highScore]
      exact hBinv
    · rw [if_neg hgo, timersPhase_score, timersPhase_highScore, gameplayStep,
        gameOverPhase_score, gameOverPhase_highScore]
      obtain ⟨b1, b2, -, -, -, -⟩ :=
        breachPhase_props (completionPhase sp (firingPhase sB))
      rw [b1, b2]
      obtain ⟨c1, c2, -, -⟩ := completionPhase_keeps sp (firingPhase sB)
      rw [c1, c2]
      exact (firingPhase_props sB).2.1 hBinv
  · intro hng
    rw [gameTick_eq]
    set sB := es.foldl (handleEvent sp) { s with frameCount := s.frameCount + 1 }
      with hsB
    have hF := foldl_events_score_quiet sp es
      { s with frameCount := s.frameCount + 1 } hng
    by_cases hgo : sB.gameOver
    · rw [if_pos hgo, timersPhase_score]
      rw [hsB, hF.1]
    · rw [if_neg hgo, timersPhase_score, gameplayStep, gameOverPhase_score]
      obtain ⟨b1, -, -, -, -, -⟩ :=
        breachPhase_props (completionPhase sp (firingPhase sB))
      rw [b1]
      obtain ⟨c1, -, -, -⟩ := completionPhase_keeps sp (firingPhase sB)
      rw [c1]
      calc s.score = sB.score := by rw [hsB, hF.1]
        _ ≤ (firingPhase sB).score := (firingPhase_props sB).1

/-- Witness for C7 on concrete states. -/
theorem C7_score_monotonicity_witness :
    (initState [2]).score ≤ (initState [2]).highScore ∧
    (gameTick [] [0] (initState [1])).score ≤
      (gameTick [] [0] (initState [1])).highScore ∧
    (initState [1]).score ≤ (gameTick [] [0] (initState [1])).score := by
  obtain ⟨w1, w2, w3⟩ := C7_score_monotonicity [2] [0] (initState [1]) []
  exact ⟨w1, w2 (le_refl _), w3 (by intro hg; simp [initState] at hg)⟩

end Brickz

namespace Brickz

/-! ### Column-range preservation lemmas -/

lemma spawnNewRow_cols (sp : List ℕ) (lvl : ℕ) (bricks : List Brick)
    (hsp : ∀ c ∈ sp, c < BRICK_COLS) (h : ColsOk bricks) :
    ColsOk (spawnNewRow sp lvl bricks) := by
  intro b hb
  rw [spawnNewRow, List.mem_append] at hb
  rcases hb with hb | hb
  · exact h b hb
  · rw [List.mem_map] at hb
    obtain ⟨c, hc, rfl⟩ := hb
    exact hsp c hc

lemma moveBricksDown_cols (bricks : List Brick) (h : ColsOk bricks) :
    ColsOk (moveBricksDown bricks) := by
  intro b hb
  rw [moveBricksDown, List.mem_map] at hb
  obtain ⟨a, ha, rfl⟩ := hb
  exact h a ha

lemma handleEvent_cols (sp : List ℕ) (s : GameState) (e : GEvent)
    (hsp : ValidSpawn sp) (h : ColsOk s.bricks) :
    ColsOk (handleEvent sp s e).bricks := by
  have hng : ColsOk (newGame sp s).bricks :=
    spawnNewRow_cols sp 1 [] hsp.2.2.2 (by intro b hb; simp at hb)
  rcases e with _ | _ | _ | ⟨mx, my⟩ <;> rw [handleEvent.eq_def] <;> dsimp only <;>
    split_ifs <;> first
      | exact hng
      | exact h

lemma foldl_events_cols (sp : List ℕ) (es : List GEvent) (hsp : ValidSpawn sp) :
    ∀ s : GameState, ColsOk s.bricks →
      ColsOk (es.foldl (handleEvent sp) s).bricks := by
  induction es with
  | nil => exact fun s h => h
  | cons e rest ih => exact fun s h => ih _ (handleEvent_cols sp s e hsp h)

lemma completionPhase_cols (sp : List ℕ) (s : GameState) (hsp : ValidSpawn sp)
    (h : ColsOk s.bricks) : ColsOk (completionPhase sp s).bricks := by
  rw [completionPhase]
  split_ifs with hc
  · show ColsOk (resetForNextTurn sp
      { s with returnedPositions := s.returnedPositions ++ s.ballsToFire.map Ball.x }).bricks
    rw [resetForNextTurn_bricks]
    exact spawnNewRow_cols _ _ _ hsp.2.2.2 (moveBricksDown_cols _ h)
  · exact h

lemma breachPhase_cols (s : GameState) (h : ColsOk s.bricks) :
    ColsOk (breachPhase s).bricks := by
  obtain ⟨c1, -, -⟩ :=
    checkBricksBottom_props s.bricks s.lives s.livesFlashTimer s.dyingBricks
  exact fun b hb => h b (c1 b hb)

lemma gameTick_cols (es : List GEvent) (sp : List ℕ) (s : GameState)
    (hsp : ValidSpawn sp) (h : ColsOk s.bricks) :
    ColsOk (gameTick es sp s).bricks := by
  rw [gameTick_eq]
  set sB := es.foldl (handleEvent sp) { s with frameCount := s.frameCount + 1 }
    with hsB
  have hB : ColsOk sB.bricks := foldl_events_cols sp es hsp _ h
  by_cases hgo : sB.gameOver
  · rw [if_pos hgo, timersPhase_bricks]
    exact hB
  · rw [if_neg hgo, timersPhase_bricks, gameplayStep, gameOverPhase_bricks]
    exact breachPhase_cols _
      (completionPhase_cols sp _ hsp ((firingPhase_props sB).2.2.1 hB))

/-! ### C8: row spawning -/

/-- C8: a spawn with columns drawn by the random sampler (between 1 and 4
distinct columns taken from the column range) creates exactly one brick per
chosen column, each at row 1 with hit points equal to the current level and
a legal column; consequently every tick keeps all live bricks inside the
column range. -/
theorem C8_spawn_row (cols : List ℕ) (hcols : ValidSpawn cols) (lvl : ℕ)
    (bricks : List Brick) (sp : List ℕ) (hsp : ValidSpawn sp) (s : GameState)
    (es : List GEvent) :
    (1 ≤ cols.length ∧ cols.length ≤ 4 ∧
      (spawnNewRow cols lvl bricks).length = bricks.length + cols.length) ∧
    (((spawnNewRow cols lvl bricks).drop bricks.length).map Brick.col = cols ∧
      cols.Nodup) ∧
    (∀ b ∈ (spawnNewRow cols lvl bricks).drop bricks.length,
      b.row = 1 ∧ b.value = (lvl : ℤ) ∧ b.col < BRICK_COLS) ∧
    (ColsOk s.bricks → ColsOk (gameTick es sp s).bricks) := by
  have hdrop : (spawnNewRow cols lvl bricks).drop bricks.length =
      cols.map fun c =>
        ({ col := c, row := 1, value := (lvl : ℤ), maxValue := (lvl : ℤ) } : Brick) := by
    rw [spawnNewRow, List.drop_left]
  refine ⟨⟨hcols.1, hcols.2.1, ?_⟩, ⟨?_, hcols.2.2.1⟩, ?_, ?_⟩
  · simp [spawnNewRow]
  · rw [hdrop]
    simp [List.map_map, Function.comp_def]
  · intro b hb
    rw [hdrop, List.mem_map] at hb
    obtain ⟨c, hc, rfl⟩ := hb
    exact ⟨rfl, rfl, hcols.2.2.2 c hc⟩
  · exact gameTick_cols es sp s hsp

/-- Witness for C8 on a concrete spawn and a concrete tick. -/
theorem C8_spawn_row_witness :
    (1 ≤ ([0, 3] : List ℕ).length ∧ ([0, 3] : List ℕ).length ≤ 4 ∧
      (spawnNewRow [0, 3] 2 []).length = ([] : List Brick).length + ([0, 3] : List ℕ).length) ∧
    (((spawnNewRow [0, 3] 2 []).drop ([] : List Brick).length).map Brick.col = [0, 3] ∧
      ([0, 3] : List ℕ).Nodup) ∧
    (∀ b ∈ (spawnNewRow [0, 3] 2 []).drop ([] : List Brick).length,
      b.row = 1 ∧ b.value = ((2 : ℕ) : ℤ) ∧ b.col < BRICK_COLS) ∧
    (ColsOk (initState [2]).bricks → ColsOk (gameTick [] [1] (initState [2])).bricks) :=
  C8_spawn_row [0, 3]
    (by refine ⟨by norm_num, by norm_num, by simp, ?_⟩
        intro c hc
        fin_cases hc <;> norm_num [BRICK_COLS])
    2 [] [1]
    (by refine ⟨by norm_num, by norm_num, by simp, ?_⟩
        intro c hc
        fin_cases hc
        norm_num [BRICK_COLS])
    (initState [2]) []

/-! ### C10: lives never negative -/

lemma handleEvent_livesInv (sp : List ℕ) (s : GameState) (e : GEvent)
    (h : LivesInv s) : LivesInv (handleEvent sp s e) := by
  have hng : LivesInv (newGame sp s) :=
    ⟨by norm_num [newGame], fun _ => by norm_num [newGame]⟩
  rcases e with _ | _ | _ | ⟨mx, my⟩ <;> rw [handleEvent.eq_def] <;> dsimp only <;>
    split_ifs with hg <;> first
      | exact hng
      | exact ⟨h.1, fun _ => h.2 hg⟩
      | exact h

lemma foldl_events_livesInv (sp : List ℕ) (es : List GEvent) :
    ∀ s, LivesInv s → LivesInv (es.foldl (handleEvent sp) s) := by
  induction es with
  | nil => exact fun s h => h
  | cons e rest ih => exact fun s h => ih _ (handleEvent_livesInv sp s e h)

lemma gameplayStep_livesInv (sp : List ℕ) (s : GameState)
    (hgo : s.gameOver = false) (h : LivesInv s) : LivesInv (gameplayStep sp s) := by
  have h1 : (completionPhase sp (firingPhase s)).lives = s.lives := by
    rw [(completionPhase_keeps sp (firingPhase s)).2.2.1, (firingPhase_props s).2.2.2.1]
  obtain ⟨-, -, -, hb1, hb2, -⟩ := breachPhase_props (completionPhase sp (firingPhase s))
  rw [h1] at hb1 hb2
  have hl1 : 1 ≤ s.lives := h.2 hgo
  rw [gameplayStep]
  constructor
  · rw [gameOverPhase_lives]
    omega
  · intro hgo2
    have h2 := (gameOverPhase_go _ hgo2).2
    rw [gameOverPhase_lives]
    omega

lemma timersPhase_livesInv (s : GameState) (h : LivesInv s) :
    LivesInv (timersPhase s) := by
  constructor
  · rw [timersPhase_lives]
    exact h.1
  · intro hg
    rw [timersPhase_lives]
    exact h.2 (by rwa [timersPhase_gameOver] at hg)

/-- C10: lives are never negative: the initial state has three lives, and a
tick from any state satisfying the lives invariant (non-negative lives, at
least one life while the game is not over) again satisfies it, because at
most one life is lost per tick and the game-over flag halts the breach
check until a new game. -/
theorem C10_lives_nonneg (sp0 sp : List ℕ) (s : GameState) (es : List GEvent)
    (h : LivesInv s) :
    LivesInv (initState sp0) ∧ LivesInv (gameTick es sp s) ∧
    0 ≤ (gameTick es sp s).lives := by
  have hinit : LivesInv (initState sp0) := by
    constructor <;> norm_num [initState]
  have htick : LivesInv (gameTick es sp s) := by
    rw [gameTick_eq]
    have hB := foldl_events_livesInv sp es
      { s with frameCount := s.frameCount + 1 } h
    set sB := es.foldl (handleEvent sp) { s with frameCount := s.frameCount + 1 }
      with hsB
    by_cases hgo : sB.gameOver
    · rw [if_pos hgo]
      exact timersPhase_livesInv _ hB
    · rw [if_neg hgo]
      exact timersPhase_livesInv _
        (gameplayStep_livesInv sp sB (by simpa using hgo) hB)
  exact ⟨hinit, htick, htick.1⟩

/-- Witness for C10 at the initial state. -/
theorem C10_lives_nonneg_witness :
    LivesInv (initState [4]) ∧ LivesInv (gameTick [] [0] (initState [3])) ∧
    0 ≤ (gameTick [] [0] (initState [3])).lives :=
  C10_lives_nonneg [4] [0] (initState [3]) []
    (by constructor <;> norm_num [initState, LivesInv])

end Brickz
